import Mathlib

/-!
Verification of the backlink-indexing orchestration core.

Shallow embedding of `src/backlink_indexer`:
  core/coordinator.py, core/enhanced_coordinator.py, core/config.py,
  queue/celery_queue.py, monitoring/success_tracker.py,
  ml/prediction_engine.py, indexing_methods/base.py.

Python floats are modelled as rationals, Python dicts as association
lists with unique keys, datetimes as ISO strings or second counts,
and the external engine / task outcomes as explicit oracles.
-/

/-- Lookup in an association list, modelling Python `dict[key]` /
`dict.get(key)` for dicts with unique keys. -/
def dictFind {κ α : Type} [DecidableEq κ] (k : κ) : List (κ × α) → Option α
  | [] => none
  | (k2, v) :: rest => if k = k2 then some v else dictFind k rest

/-- `dict.get(key, default)`. -/
def dictGetD {κ α : Type} [DecidableEq κ] (k : κ) (d : α) (l : List (κ × α)) : α :=
  (dictFind k l).getD d

/-- ASCII lower-casing of one character, as Python `str.lower` does on
the ASCII method names used by the coordinator. -/
def asciiLowerChar (c : Char) : Char :=
  if decide (65 ≤ c.toNat) && decide (c.toNat ≤ 90) then Char.ofNat (c.toNat + 32) else c

/-- Python `str.lower` on ASCII strings. -/
def pyLower (s : String) : String := ⟨s.data.map asciiLowerChar⟩

/-- If `pattern` is a prefix of `s`, return the rest of `s`. -/
def matchDrop : List Char → List Char → Option (List Char)
  | [], s => some s
  | _ :: _, [] => none
  | p :: ps, c :: cs => if p = c then matchDrop ps cs else none

/-- Left-to-right non-overlapping replacement on character lists, with
explicit fuel; models Python `str.replace` for a non-empty pattern. -/
def replaceAllAux (pattern repl : List Char) : Nat → List Char → List Char
  | _, [] => []
  | 0, s => s
  | fuel + 1, c :: cs =>
      match matchDrop pattern (c :: cs) with
      | some rest => repl ++ replaceAllAux pattern repl fuel rest
      | none => c :: replaceAllAux pattern repl fuel cs

/-- Python `str.replace(pattern, repl)` (non-empty pattern). -/
def pyReplace (s pattern repl : String) : String :=
  ⟨replaceAllAux pattern.data repl.data s.data.length s.data⟩

/-- One per-URL result dictionary produced by an indexing method, as
consumed by the coordinators: `r[url]`, `r.get(success, False)`,
`r.get(error)`.  The extra diagnostic keys of the Python dicts
(`method`, `platform`, `timestamp`, ...) do not influence the claims
and are elided. -/
structure MethodResult where
  url : String
  success : Bool
  error : Option String
deriving DecidableEq, Repr

/-- `URLRecord` from `core/config.py` (the `metadata` dict, which is
never read by the coordinator, is elided). -/
structure URLRecord where
  url : String
  status : String := "pending"
  methodsAttempted : List String := []
  methodsSuccessful : List String := []
  attempts : Nat := 0
  lastAttempt : String := ""
  indexedDate : String := ""
  errorMessages : List String := []
  successScore : ℚ := 0
deriving DecidableEq, Repr

/-- `EXPECTED_SUCCESS_RATES` from `core/config.py`. -/
def expectedSuccessRates : List (String × ℚ) :=
  [("social_bookmarking", 75/100),
   ("rss_distribution", 85/100),
   ("web2_posting", 80/100),
   ("forum_commenting", 65/100),
   ("directory_submission", 70/100),
   ("social_signals", 60/100)]

/-- `method_name.lower().replace(engine, )` — the key used to look up
the per-method score contribution (coordinator.py lines 176-178). -/
def methodRateKey (methodName : String) : String :=
  pyReplace (pyLower methodName) "engine" ""

/-- `EXPECTED_SUCCESS_RATES.get(key, 0.1)` — the score added for one
successful method attempt. -/
def methodContribution (methodName : String) : ℚ :=
  dictGetD (methodRateKey methodName) (1/10) expectedSuccessRates

/-- Default `IndexingConfig.success_threshold` (core/config.py line 44). -/
def defaultSuccessThreshold : ℚ := 95/100

/-- The matched branch of
`BacklinkIndexingCoordinator._update_records_with_results`
(coordinator.py lines 171-193): applied to a record when a result with
its URL was found among one method's results. -/
def applyResult (record : URLRecord) (res : MethodResult) (methodName now : String)
    (threshold : ℚ) : URLRecord :=
  let r1 := { record with methodsAttempted := record.methodsAttempted ++ [methodName] }
  let r2 :=
    if res.success then
      { r1 with methodsSuccessful := r1.methodsSuccessful ++ [methodName],
                successScore := r1.successScore + methodContribution methodName }
    else
      { r1 with errorMessages :=
          r1.errorMessages ++ [methodName ++ ": " ++ res.error.getD "Unknown error"] }
  let r3 := { r2 with attempts := r2.attempts + 1, lastAttempt := now }
  if threshold ≤ r3.successScore then
    { r3 with status := "success", indexedDate := now }
  else if 0 < r3.successScore then
    { r3 with status := "partial_success" }
  else
    { r3 with status := "failed" }

/-- `_update_records_with_results` (coordinator.py lines 163-193):
each record is updated with the first result whose url matches, and is
left unchanged when no result matches. -/
def updateRecordsWithResults (records : List URLRecord) (methodResults : List MethodResult)
    (methodName now : String) (threshold : ℚ) : List URLRecord :=
  records.map fun record =>
    match methodResults.find? (fun res => res.url == record.url) with
    | some res => applyResult record res methodName now threshold
    | none => record

/-- A sequence of per-method update rounds, as produced by
`_execute_primary_methods` and `_execute_secondary_methods` (one call
to `_update_records_with_results` per method). -/
def applyMethodRounds (records : List URLRecord)
    (rounds : List (List MethodResult × String)) (now : String) (threshold : ℚ) :
    List URLRecord :=
  rounds.foldl (fun recs round => updateRecordsWithResults recs round.1 round.2 now threshold)
    records

/-- Final summary of `_compile_final_results` (coordinator.py lines
195-222); the per-method performance map is elided. -/
structure FinalResults where
  totalUrls : Nat
  successfulUrls : Nat
  partialSuccessUrls : Nat
  failedUrls : Nat
  overallSuccessRate : ℚ
  urlRecords : List URLRecord
deriving DecidableEq, Repr

/-- `_compile_final_results` (coordinator.py lines 195-222). -/
def compileFinalResults (records : List URLRecord) : FinalResults :=
  let total := records.length
  let succ := (records.filter (fun r => r.status == "success")).length
  let part := (records.filter (fun r => r.status == "partial_success")).length
  let fail := (records.filter (fun r => r.status == "failed")).length
  { totalUrls := total
    successfulUrls := succ
    partialSuccessUrls := part
    failedUrls := fail
    overallSuccessRate := if 0 < total then ((succ : ℚ) + part) / total else 0
    urlRecords := records }

/-- Phase-2 selection of `process_url_collection` (coordinator.py
lines 92-93): records dispatched to the secondary methods. -/
def selectSecondaryRecords (records : List URLRecord) (successThreshold : ℚ) :
    List URLRecord :=
  records.filter (fun record => record.successScore < successThreshold)

/-- The set of URLs with at least one successful result in a group of
per-method result lists (enhanced_coordinator.py lines 172-179 and
210-219 both build this Python set); modelled as a deduplicated list. -/
def collectSuccessfulUrls (methodResultLists : List (List MethodResult)) : List String :=
  (((methodResultLists.flatten).filter (fun r => r.success)).map (fun r => r.url)).dedup

/-- `MultiLayerIndexingStrategy.filter_unsuccessful_urls`
(enhanced_coordinator.py lines 167-186): pairs of (url, metadata)
whose url got no successful result in the layer; when the layer
produced no method results at all, the pairs are returned unchanged. -/
def filterUnsuccessfulUrls (pairs : List (String × String))
    (methodResultLists : List (List MethodResult)) : List (String × String) :=
  if methodResultLists.isEmpty then pairs
  else
    let successfulUrls := collectSuccessfulUrls methodResultLists
    pairs.filter (fun p => p.1 ∉ successfulUrls)

/-- Output of `MultiLayerIndexingStrategy.calculate_overall_results`
(enhanced_coordinator.py lines 208-225). -/
structure OverallResults where
  successfulUrls : List String
  failedUrls : List String
  overallSuccessRate : ℚ
deriving DecidableEq, Repr

/-- `calculate_overall_results` (enhanced_coordinator.py lines
208-225), given the flattened per-method result lists of all layers. -/
def calculateOverallResults (methodResultLists : List (List MethodResult))
    (originalUrls : List String) : OverallResults :=
  let s := collectSuccessfulUrls methodResultLists
  { successfulUrls := s
    failedUrls := originalUrls.filter (fun url => url ∉ s)
    overallSuccessRate :=
      if 0 < originalUrls.length then (s.length : ℚ) / originalUrls.length else 0 }

/-- Trace of `execute_layered_strategy` (enhanced_coordinator.py lines
54-100): which (url, metadata) pairs each layer was dispatched with,
and the overall results. -/
structure LayeredStrategyTrace where
  primaryInput : List (String × String)
  secondaryInput : List (String × String)
  amplificationInput : List (String × String)
  overall : OverallResults
deriving DecidableEq, Repr

/-- `execute_layered_strategy` (enhanced_coordinator.py lines 54-100).
The engines behind `execute_layer` are external; `layerOutcome` is the
oracle giving the per-method result lists a layer produces for the
urls it is dispatched with.  Metadata defaults to one empty dict per
url (line 56); the secondary layer runs only when urls remain (line
81); the amplification input is rebuilt from the full original lists
(line 91). -/
def executeLayeredStrategy (urls : List String) (metadataList : Option (List String))
    (layerOutcome : String → List String → List (List MethodResult)) :
    LayeredStrategyTrace :=
  let metadata := match metadataList with
    | some ms => ms
    | none => List.replicate urls.length ""
  let remaining0 := urls.zip metadata
  let primaryResults := layerOutcome "primary" (remaining0.map Prod.fst)
  let remaining1 := filterUnsuccessfulUrls remaining0 primaryResults
  let secondaryResults :=
    if remaining1.isEmpty then [] else layerOutcome "secondary" (remaining1.map Prod.fst)
  let amplificationInput := urls.zip metadata
  let amplificationResults := layerOutcome "amplification" (amplificationInput.map Prod.fst)
  { primaryInput := remaining0
    secondaryInput := if remaining1.isEmpty then [] else remaining1
    amplificationInput := amplificationInput
    overall :=
      calculateOverallResults (primaryResults ++ secondaryResults ++ amplificationResults)
        urls }

/-- In-task sleep before a retry, `backoff_delay = min(300, (2 **
attempt) * 60)` (celery_queue.py line 221), in seconds. -/
def retrySleepDelay (attempt : Nat) : Nat := min 300 (2 ^ attempt * 60)

/-- Countdown used to schedule the next retry task, `min(600, (2 **
next_attempt) * 120)` (celery_queue.py line 242), in seconds. -/
def retryCountdown (nextAttempt : Nat) : Nat := min 600 (2 ^ nextAttempt * 120)

/-- Retention of the day-keyed `failed_urls:<date>` Redis set
(celery_queue.py line 211), in seconds. -/
def failedPoolRetentionSeconds : Nat := 604800

/-- Outcome of the inner `process_single_url` call executed by
`retry_failed_url`: it returns success, returns failure, or raises. -/
inductive RetryOutcome
  | succeeds
  | fails
  | raises
deriving DecidableEq, Repr

/-- Value returned by one `retry_failed_url` invocation. -/
inductive RetryResult
  | permanentlyFailed (finalAttempt : Nat)
  | completed (success : Bool) (attempt : Nat)
  | retryScheduled (attempt : Nat) (nextAttempt : Option Nat)
deriving DecidableEq, Repr

/-- Observable effects of one `retry_failed_url` invocation:
whether the url was added to the day-keyed failed pool, the returned
dict, and which attempt number (if any) was scheduled next. -/
structure RetryStep where
  attempt : Nat
  addedToFailedPool : Bool
  result : RetryResult
  scheduledNext : Option Nat
deriving DecidableEq, Repr

/-- `retry_failed_url` (celery_queue.py lines 197-250) for one
invocation at a given attempt number, with `outcome` the oracle for
the inner `process_single_url` call at each attempt. -/
def retryFailedUrl (outcome : Nat → RetryOutcome) (attempt : Nat) : RetryStep :=
  if 5 < attempt then
    { attempt := attempt
      addedToFailedPool := true
      result := .permanentlyFailed attempt
      scheduledNext := none }
  else
    match outcome attempt with
    | .succeeds =>
        { attempt := attempt, addedToFailedPool := false
          result := .completed true attempt, scheduledNext := none }
    | .fails =>
        { attempt := attempt, addedToFailedPool := false
          result := .completed false attempt, scheduledNext := none }
    | .raises =>
        let next := attempt + 1
        let sched := if next ≤ 5 then some next else none
        { attempt := attempt, addedToFailedPool := false
          result := .retryScheduled attempt sched, scheduledNext := sched }

/-- The chain of `retry_failed_url` invocations: each invocation runs,
and when it scheduled a next attempt the chain continues there.  The
fuel bounds the recursion; `fuel = 10` covers every reachable chain,
since scheduled attempt numbers never exceed 5. -/
def retryChain (outcome : Nat → RetryOutcome) : Nat → Nat → List RetryStep
  | 0, _ => []
  | fuel + 1, attempt =>
      let step := retryFailedUrl outcome attempt
      match step.scheduledNext with
      | some next => step :: retryChain outcome fuel next
      | none => [step]

/-- The all-failing oracle of the claim scenario: every inner
`process_single_url` call raises. -/
def allRaises : Nat → RetryOutcome := fun _ => .raises

/-- `SuccessTracker` in-memory cache (success_tracker.py lines 49-52):
`metrics_cache` maps a cache key to a cached metrics value (abstracted
to a numeric id) and `last_cache_update` maps a cache key to the time
it was stored, in seconds. -/
structure CacheState where
  metricsCache : List (String × Nat)
  lastCacheUpdate : List (String × Nat)
deriving DecidableEq, Repr

/-- `self.cache_ttl = 300` (success_tracker.py line 51), in seconds. -/
def cacheTtl : Nat := 300

/-- The cache key built by `get_method_performance`
(success_tracker.py line 210): `f"<method_name>_<days>"`. -/
def perfCacheKey (methodName : String) (days : Nat) : String :=
  methodName ++ "_" ++ toString days

/-- Python `timedelta.seconds` of a non-negative delta of `elapsed`
seconds: the seconds component, i.e. the delta modulo one day. -/
def timedeltaSeconds (elapsed : Nat) : Nat := elapsed % 86400

/-- The cache test of `get_method_performance` (success_tracker.py
lines 211-214): the key is in both maps and the entry is younger than
the TTL. -/
def servedFromCache (now : Nat) (st : CacheState) (methodName : String) (days : Nat) :
    Bool :=
  let key := perfCacheKey methodName days
  match dictFind key st.metricsCache, dictFind key st.lastCacheUpdate with
  | some _, some t => timedeltaSeconds (now - t) < cacheTtl
  | _, _ => false

/-- The cache-clearing step of `record_attempt` (success_tracker.py
lines 143-145): `del self.metrics_cache[attempt.method]` when that
exact key is present (deleting an absent key and the guarded delete
coincide on maps with unique keys). -/
def recordAttemptCacheInvalidate (st : CacheState) (methodName : String) : CacheState :=
  { st with metricsCache := st.metricsCache.filter (fun kv => kv.1 ≠ methodName) }

/-- The caching branch structure of `get_method_performance`
(success_tracker.py lines 207-285): serve the cached value when fresh,
else store the freshly computed value (`computed`, the aggregate the
SQL queries produce) under the key with the current time. -/
def getMethodPerformance (now : Nat) (st : CacheState) (methodName : String) (days : Nat)
    (computed : Nat) : Nat × CacheState :=
  let key := perfCacheKey methodName days
  if servedFromCache now st methodName days then
    ((dictFind key st.metricsCache).getD computed, st)
  else
    (computed,
      { metricsCache := (key, computed) :: st.metricsCache.filter (fun kv => kv.1 ≠ key)
        lastCacheUpdate := (key, now) :: st.lastCacheUpdate.filter (fun kv => kv.1 ≠ key) })

/-- `IndexingAttempt` from success_tracker.py lines 14-24 (the
metadata dict is carried as its JSON serialization). -/
structure IndexingAttempt where
  url : String
  method : String
  platform : String
  success : Bool
  timestamp : String
  responseTime : ℚ
  errorMessage : String
  metadataJson : String
deriving DecidableEq, Repr

/-- One row of the `daily_summaries` table (success_tracker.py lines
79-91 and 150-205). -/
structure DailySummary where
  totalAttempts : Nat
  successfulAttempts : Nat
  successRate : ℚ
  platforms : List String
deriving DecidableEq, Repr

/-- Persistent state of the tracker database: the append-only
`indexing_attempts` ledger and the `daily_summaries` table keyed by
(date, method). -/
structure TrackerDb where
  attemptsLedger : List IndexingAttempt
  dailySummaries : List ((String × String) × DailySummary)
deriving DecidableEq, Repr

/-- `attempt.timestamp.date().isoformat()` for an ISO timestamp
string: the prefix before the `T` separator. -/
def dateOf (timestamp : String) : String :=
  ⟨timestamp.data.takeWhile (fun c => c ≠ 'T')⟩

/-- `update_daily_summary` (success_tracker.py lines 150-205). -/
def updateDailySummary (db : TrackerDb) (a : IndexingAttempt) : TrackerDb :=
  let key := (dateOf a.timestamp, a.method)
  let prev := (dictFind key db.dailySummaries).getD
    { totalAttempts := 0, successfulAttempts := 0, successRate := 0, platforms := [] }
  let total := prev.totalAttempts + 1
  let succ := prev.successfulAttempts + (if a.success then 1 else 0)
  let platforms :=
    if a.platform ∈ prev.platforms then prev.platforms else prev.platforms ++ [a.platform]
  let rate : ℚ := if 0 < total then (succ : ℚ) / total else 0
  { db with dailySummaries :=
      (key, { totalAttempts := total, successfulAttempts := succ,
              successRate := rate, platforms := platforms })
        :: db.dailySummaries.filter (fun kv => kv.1 ≠ key) }

/-- `record_attempt` (success_tracker.py lines 116-148).  `insertOk`
says whether the database insert/commit succeeds; when it raises, the
except branch (lines 147-148) logs the error and returns normally.
The third component of the result is whether an error is signalled to
the caller — which the source never does. -/
def recordAttempt (insertOk : Bool) (db : TrackerDb) (cache : CacheState)
    (a : IndexingAttempt) : TrackerDb × CacheState × Bool :=
  if insertOk then
    let db1 := { db with attemptsLedger := db.attemptsLedger ++ [a] }
    let db2 := updateDailySummary db1 a
    (db2, recordAttemptCacheInvalidate cache a.method, false)
  else
    (db, cache, false)

/-- `IndexingMethod` enum from ml/prediction_engine.py. -/
inductive IndexingMethod
  | socialBookmarking
  | rssDistribution
  | web2Posting
  | forumCommenting
  | directorySubmission
  | socialSignals
deriving DecidableEq, Repr

/-- `base_rates` of `_heuristic_prediction` (prediction_engine.py
lines 305-312); the dict covers every enum member, so the `.get`
default 0.75 is never taken. -/
def heuristicBaseRates (m : IndexingMethod) : ℚ :=
  match m with
  | .socialBookmarking => 85/100
  | .rssDistribution => 90/100
  | .web2Posting => 75/100
  | .forumCommenting => 65/100
  | .directorySubmission => 70/100
  | .socialSignals => 80/100

/-- Python `pattern in s` substring test, scanning every position. -/
def containsSub (pattern : List Char) : List Char → Bool
  | [] => (matchDrop pattern []).isSome
  | c :: cs => (matchDrop pattern (c :: cs)).isSome || containsSub pattern cs

/-- `any(term in url.lower() for term in [blog, article, news])`
(prediction_engine.py line 325). -/
def containsContentTerm (url : String) : Bool :=
  let lower := pyLower url
  ["blog", "article", "news"].any (fun t => containsSub t.data lower.data)

/-- `len(parsed_url.path.split(/)) > 6` (prediction_engine.py line
329); splitting on a single character yields one more piece than there
are separator occurrences. -/
def pathDepthPenaltyApplies (path : String) : Bool :=
  path.data.count '/' + 1 > 6

/-- `_heuristic_prediction` (prediction_engine.py lines 301-342),
taking the url together with its parsed scheme and path.  Returns the
probability; the accompanying info dict repeats the probability and a
fixed confidence and is elided. -/
def heuristicPrediction (url scheme path : String) (m : IndexingMethod) : ℚ :=
  let base := heuristicBaseRates m
  let b1 := if scheme = "https" then base + 5/100 else base
  let b2 := if containsContentTerm url then b1 + 3/100 else b1
  let b3 := if pathDepthPenaltyApplies path then b2 - 2/100 else b2
  max (1/10) (min (95/100) b3)

/-- One iteration of the loop in `IndexingMethodBase.process_batch`
(base.py lines 36-53): the result appended for the url at position
`i`.  `outcome i` is the oracle for the `process_url` call: either the
result dict the engine returned, or the exception it raised. -/
def processOne (outcome : Nat → Except String MethodResult) (i : Nat) (url : String) :
    MethodResult :=
  match outcome i with
  | .ok r => r
  | .error e => { url := url, success := false, error := some e }

/-- The sequential loop of `process_batch`, processing the urls from
position `i` on. -/
def processBatchFrom (outcome : Nat → Except String MethodResult) :
    Nat → List String → List MethodResult
  | _, [] => []
  | i, url :: rest => processOne outcome i url :: processBatchFrom outcome (i + 1) rest

/-- `IndexingMethodBase.process_batch` (base.py lines 32-55).  The
except branch never re-raises, so the function is total in the
oracle. -/
def processBatch (outcome : Nat → Except String MethodResult) (urls : List String) :
    List MethodResult :=
  processBatchFrom outcome 0 urls

/-! Concrete inputs used to instantiate the theorems below. -/

/-- A fresh record for one input URL, as built by
`process_url_collection` line 86. -/
def recC1 : URLRecord := { url := "http://a" }

/-- A successful method result for that URL. -/
def resC1 : MethodResult := { url := "http://a", success := true, error := none }

/-- The record `recC1` after one successful
`SocialBookmarkingEngine` result under the default success threshold:
the rate key `socialbookmarking` misses `EXPECTED_SUCCESS_RATES` (its
keys contain underscores), so the default contribution 0.1 applies and
the record ends in `partial_success`. -/
def updatedRecC1 : URLRecord :=
  { url := "http://a"
    status := "partial_success"
    methodsAttempted := ["SocialBookmarkingEngine"]
    methodsSuccessful := ["SocialBookmarkingEngine"]
    attempts := 1
    lastAttempt := "2025-01-01T00:00:00"
    indexedDate := ""
    errorMessages := []
    successScore := 1/10 }

/-- A record whose cumulative score 0.8 lies at or above the declared
primary-layer threshold 0.7 but below the configured success threshold
0.95. -/
def recC2 : URLRecord := { url := "http://b", successScore := 8/10 }

/-- A cache state holding one method-performance entry, keyed as
`get_method_performance` keys it, stored at time 0. -/
def c7State : CacheState :=
  { metricsCache := [("social_bookmarking_7", 42)]
    lastCacheUpdate := [("social_bookmarking_7", 0)] }

/-- A concrete attempt for the tracker theorems. -/
def attemptC8 : IndexingAttempt :=
  { url := "http://a"
    method := "social_bookmarking"
    platform := "reddit"
    success := true
    timestamp := "2025-01-01T00:00:00"
    responseTime := 0
    errorMessage := ""
    metadataJson := "" }

/-- A per-url outcome oracle for `process_batch`: the first URL
returns a successful result, every later one raises. -/
def outcomeC10 : Nat → Except String MethodResult :=
  fun i =>
    if i = 0 then .ok { url := "http://a", success := true, error := none }
    else .error "boom"

/-- The urls fed to `process_batch` in the concrete instance. -/
def urlsC10 : List String := ["http://a", "http://b"]

/-! ## Helper lemmas -/

theorem dictFind_filter_ne {α : Type} (l : List (String × α)) (k m : String) (h : k ≠ m) :
    dictFind k (l.filter (fun kv => kv.1 ≠ m)) = dictFind k l := by
  induction l with
  | nil => rfl
  | cons kv rest ih =>
      obtain ⟨k2, v⟩ := kv
      simp only [List.filter_cons]
      by_cases hk2 : k2 = m
      · rw [if_neg (by simp [hk2])]
        rw [ih]
        have hne : ¬ (k = k2) := fun hh => h (hh.trans hk2)
        simp only [dictFind, if_neg hne]
      · rw [if_pos (by simp [hk2])]
        by_cases hk : k = k2
        · simp only [dictFind, if_pos hk]
        · simp only [dictFind, if_neg hk]
          exact ih

theorem perfCacheKey_ne (m : String) (d : Nat) : perfCacheKey m d ≠ m := by
  intro heq
  have hlen := congrArg String.length heq
  have h1 : ("_" : String).length = 1 := rfl
  simp [perfCacheKey, String.length_append, h1] at hlen
  omega

theorem dictGetD_rat_nonneg (k : String) (d : ℚ) (l : List (String × ℚ))
    (hd : 0 ≤ d) (hl : ∀ p ∈ l, 0 ≤ p.2) : 0 ≤ dictGetD k d l := by
  induction l with
  | nil => simpa [dictGetD, dictFind] using hd
  | cons kv rest ih =>
      by_cases hk : k = kv.1
      · have := hl kv (List.mem_cons_self kv rest)
        simpa [dictGetD, dictFind, hk] using this
      · have := ih (fun p hp => hl p (List.mem_cons_of_mem kv hp))
        simpa [dictGetD, dictFind, hk] using this

theorem methodContribution_nonneg (methodName : String) :
    0 ≤ methodContribution methodName := by
  unfold methodContribution
  apply dictGetD_rat_nonneg
  · norm_num
  · intro p hp
    simp [expectedSuccessRates] at hp
    rcases hp with h | h | h | h | h | h <;> rw [h] <;> norm_num

theorem applyResult_successScore (record : URLRecord) (res : MethodResult)
    (methodName now : String) (t : ℚ) :
    (applyResult record res methodName now t).successScore =
      if res.success then record.successScore + methodContribution methodName
      else record.successScore := by
  unfold applyResult
  by_cases hs : res.success <;> simp [hs] <;> split_ifs <;> rfl

theorem applyResult_score_mono (record : URLRecord) (res : MethodResult)
    (methodName now : String) (t : ℚ) :
    record.successScore ≤ (applyResult record res methodName now t).successScore := by
  rw [applyResult_successScore]
  by_cases hs : res.success
  · rw [if_pos hs]
    exact le_add_of_nonneg_right (methodContribution_nonneg methodName)
  · rw [if_neg hs]

theorem applyResult_status (record : URLRecord) (res : MethodResult)
    (methodName now : String) (t : ℚ) :
    (applyResult record res methodName now t).status = "success" ∨
    (applyResult record res methodName now t).status = "partial_success" ∨
    (applyResult record res methodName now t).status = "failed" := by
  unfold applyResult
  by_cases hs : res.success <;> simp [hs] <;> split_ifs <;> simp

theorem updateRecordsWithResults_getElem? (records : List URLRecord)
    (methodResults : List MethodResult) (methodName now : String) (t : ℚ) (i : Nat) :
    (updateRecordsWithResults records methodResults methodName now t)[i]? =
      records[i]?.map (fun record =>
        match methodResults.find? (fun res => res.url == record.url) with
        | some res => applyResult record res methodName now t
        | none => record) := by
  unfold updateRecordsWithResults
  exact List.getElem?_map _ _ _

theorem applyMethodRounds_cons (records : List URLRecord)
    (round : List MethodResult × String) (rounds : List (List MethodResult × String))
    (now : String) (t : ℚ) :
    applyMethodRounds records (round :: rounds) now t =
      applyMethodRounds (updateRecordsWithResults records round.1 round.2 now t) rounds
        now t := rfl

theorem applyMethodRounds_score_mono (rounds : List (List MethodResult × String))
    (records : List URLRecord) (now : String) (t : ℚ) (i : Nat) (r r2 : URLRecord)
    (h : records[i]? = some r)
    (h2 : (applyMethodRounds records rounds now t)[i]? = some r2) :
    r.successScore ≤ r2.successScore := by
  induction rounds generalizing records r with
  | nil =>
      unfold applyMethodRounds at h2
      simp only [List.foldl_nil] at h2
      rw [h] at h2
      cases h2
      exact le_refl _
  | cons round rest ih =>
      rw [applyMethodRounds_cons] at h2
      set mid := updateRecordsWithResults records round.1 round.2 now t with hmid
      have hmidi : mid[i]? =
          some (match round.1.find? (fun res : MethodResult => res.url == r.url) with
            | some res => applyResult r res round.2 now t
            | none => r) := by
        rw [hmid, updateRecordsWithResults_getElem?, h]
        rfl
      have hstep : r.successScore ≤
          (match round.1.find? (fun res : MethodResult => res.url == r.url) with
            | some res => applyResult r res round.2 now t
            | none => r).successScore := by
        cases hf : round.1.find? (fun res : MethodResult => res.url == r.url) with
        | some res => exact applyResult_score_mono r res round.2 now t
        | none => exact le_refl _
      exact le_trans hstep (ih mid _ hmidi h2)

theorem methodContributionSBE : methodContribution "SocialBookmarkingEngine" = 1/10 := by
  have hk : methodRateKey "SocialBookmarkingEngine" = "socialbookmarking" := by decide
  unfold methodContribution
  rw [hk]
  simp [dictGetD, dictFind, expectedSuccessRates]

theorem applyResultEvalC1 :
    applyResult recC1 resC1 "SocialBookmarkingEngine" "2025-01-01T00:00:00"
      defaultSuccessThreshold = updatedRecC1 := by
  unfold applyResult
  simp only [recC1, resC1, updatedRecC1, methodContributionSBE, defaultSuccessThreshold]
  norm_num

theorem updateEvalC1 :
    updateRecordsWithResults [recC1] [resC1] "SocialBookmarkingEngine" "2025-01-01T00:00:00"
      defaultSuccessThreshold = [updatedRecC1] := by
  have hfind : [resC1].find? (fun res => res.url == recC1.url) = some resC1 := by decide
  unfold updateRecordsWithResults
  simp only [List.map]
  rw [hfind]
  show [applyResult recC1 resC1 "SocialBookmarkingEngine" "2025-01-01T00:00:00"
    defaultSuccessThreshold] = [updatedRecC1]
  rw [applyResultEvalC1]

theorem count_three_filters (records : List URLRecord)
    (h : ∀ r ∈ records, r.status = "success" ∨ r.status = "partial_success" ∨
      r.status = "failed") :
    (records.filter (fun r => r.status == "success")).length +
    (records.filter (fun r => r.status == "partial_success")).length +
    (records.filter (fun r => r.status == "failed")).length = records.length := by
  induction records with
  | nil => simp
  | cons r rest ih =>
      have hr := h r (List.mem_cons_self r rest)
      have ih2 := ih (fun x hx => h x (List.mem_cons_of_mem r hx))
      rcases hr with hs | hs | hs <;>
        simp [List.filter_cons, hs] <;> omega

theorem calculateOverallResults_partition (mrls : List (List MethodResult))
    (origUrls : List String) (hnd : origUrls.Nodup)
    (hsub : ∀ r ∈ mrls.flatten, r.success = true → r.url ∈ origUrls) :
    (calculateOverallResults mrls origUrls).successfulUrls.length +
      (calculateOverallResults mrls origUrls).failedUrls.length = origUrls.length := by
  simp only [calculateOverallResults]
  set S := collectSuccessfulUrls mrls with hS
  have hSnodup : S.Nodup := List.nodup_dedup _
  have hSsub : ∀ u ∈ S, u ∈ origUrls := by
    intro u hu
    rw [hS] at hu
    unfold collectSuccessfulUrls at hu
    rw [List.mem_dedup] at hu
    simp only [List.mem_map, List.mem_filter] at hu
    obtain ⟨r, ⟨hrmem, hrsucc⟩, hrurl⟩ := hu
    subst hrurl
    exact hsub r hrmem hrsucc
  have hperm : List.Perm (origUrls.filter (fun u => u ∈ S)) S := by
    apply List.perm_of_nodup_nodup_toFinset_eq (hnd.filter _) hSnodup
    ext a
    simp only [List.mem_toFinset, List.mem_filter, decide_eq_true_eq]
    constructor
    · rintro ⟨_, haS⟩
      exact haS
    · intro haS
      exact ⟨hSsub a haS, haS⟩
  have hsplit := List.length_eq_length_filter_add (l := origUrls) (fun u => decide (u ∈ S))
  rw [hperm.length_eq] at hsplit
  have hconv : origUrls.filter (fun u => !decide (u ∈ S)) =
      origUrls.filter (fun u => u ∉ S) := by
    apply List.filter_congr
    intro u _
    simp [decide_not]
  rw [hconv] at hsplit
  omega

theorem processBatchFrom_length (outcome : Nat → Except String MethodResult) :
    ∀ (i : Nat) (urls : List String), (processBatchFrom outcome i urls).length = urls.length
  | _, [] => rfl
  | i, _ :: rest => by
      simp [processBatchFrom, processBatchFrom_length outcome (i + 1) rest]

theorem processBatchFrom_getElem? (outcome : Nat → Except String MethodResult)
    (urls : List String) : ∀ (start i : Nat),
    (processBatchFrom outcome start urls)[i]? =
      urls[i]?.map (fun u => processOne outcome (start + i) u) := by
  induction urls with
  | nil =>
      intro start i
      simp [processBatchFrom]
  | cons u rest ih =>
      intro start i
      cases i with
      | zero => simp [processBatchFrom]
      | succ n =>
          simp only [processBatchFrom, List.getElem?_cons_succ]
          rw [ih (start + 1) n]
          have harith : start + 1 + n = start + (n + 1) := by omega
          rw [harith]

theorem mem_filterUnsuccessfulUrls (pairs : List (String × String))
    (mrls : List (List MethodResult)) (p : String × String) :
    p ∈ filterUnsuccessfulUrls pairs mrls ↔
      p ∈ pairs ∧ p.1 ∉ collectSuccessfulUrls mrls := by
  unfold filterUnsuccessfulUrls
  by_cases he : mrls.isEmpty
  · rw [if_pos he]
    have hnil : collectSuccessfulUrls mrls = [] := by
      rw [List.isEmpty_iff] at he
      subst he
      rfl
    simp [hnil]
  · rw [if_neg he]
    simp [List.mem_filter]

theorem mem_selectSecondaryRecords (records : List URLRecord) (t : ℚ) (r : URLRecord) :
    r ∈ selectSecondaryRecords records t ↔ r ∈ records ∧ r.successScore < t := by
  unfold selectSecondaryRecords
  simp [List.mem_filter]

/-! ## Claim theorems -/

/-- Claim C3: the retry delay scheduled before re-processing a failed URL at
attempt `n` equals `min(maxDelay, base * 2^n)` with `base = 120` s and
the cap `maxDelay = 600` s (10 minutes); the delay is positive (so
scheduled `not_before` timestamps strictly increase), monotonically
non-decreasing in `n`, and strictly increasing until the cap is
reached. -/
theorem c3_retry_backoff (n : Nat) :
    retryCountdown n = min 600 (120 * 2 ^ n) ∧
    0 < retryCountdown n ∧
    retryCountdown n ≤ retryCountdown (n + 1) ∧
    (retryCountdown n < 600 → retryCountdown n < retryCountdown (n + 1)) := by
  have h2 : (2 : Nat) ^ (n + 1) * 120 = 2 * (2 ^ n * 120) := by ring
  have hpos : 0 < 2 ^ n * 120 := Nat.mul_pos (Nat.pow_pos (by norm_num)) (by norm_num)
  refine ⟨?_, ?_, ?_, ?_⟩
  · unfold retryCountdown
    rw [Nat.mul_comm]
  · unfold retryCountdown
    exact lt_min (by norm_num) hpos
  · unfold retryCountdown
    apply min_le_min (le_refl 600)
    rw [h2]
    omega
  · intro hlt
    unfold retryCountdown at hlt ⊢
    rcases le_or_lt 600 (2 ^ n * 120) with h | h
    · rw [min_eq_left h] at hlt
      omega
    · rw [min_eq_right (le_of_lt h)] at hlt ⊢
      apply lt_min hlt
      rw [h2]
      omega

/-- Witness for C3 at `n = 2`: the delay 480 s is below the cap and
strictly smaller than the next delay. -/
theorem c3_witness :
    retryCountdown 2 = min 600 (120 * 2 ^ 2) ∧ retryCountdown 2 < retryCountdown 3 := by
  refine ⟨(c3_retry_backoff 2).1, (c3_retry_backoff 2).2.2.2 ?_⟩
  decide

/-- Claim C4 (code bug): evaluating the retry chain at the failing input —
entered at attempt 1 with every attempt raising.  The chain runs
attempts 1 through 5, never adds the URL to the day-keyed
permanent-failure pool, and ends by returning `retry_scheduled` with
no next attempt rather than `permanently_failed` with
`attempts_made = 5`: the permanent-failure branch needs `attempt > 5`,
which the scheduler never enqueues (only `next_attempt ≤ 5` is), and
even when entered directly at attempt 6 it reports `final_attempt = 6`.
The pool retention of 7 days holds. -/
theorem c4_code_bug_eval :
    (retryChain allRaises 10 1).map (fun s => s.attempt) = [1, 2, 3, 4, 5] ∧
    (∀ s ∈ retryChain allRaises 10 1, s.addedToFailedPool = false) ∧
    (retryChain allRaises 10 1).getLast? = some
      { attempt := 5, addedToFailedPool := false,
        result := RetryResult.retryScheduled 5 none, scheduledNext := none } ∧
    retryFailedUrl allRaises 6 =
      { attempt := 6, addedToFailedPool := true,
        result := RetryResult.permanentlyFailed 6, scheduledNext := none } ∧
    failedPoolRetentionSeconds = 7 * 86400 := by decide

/-- Claim C5: within one campaign, a URL record's cumulative success score
never decreases under the coordinator's updates: across any sequence
of per-method update rounds the record at any position only grows its
score, and a single update leaves the score unchanged on failure and
adds the (non-negative) per-method contribution on success. -/
theorem c5_score_monotone (rounds : List (List MethodResult × String))
    (records : List URLRecord) (now : String) (t : ℚ) (i : Nat) (r r2 : URLRecord)
    (h : records[i]? = some r)
    (h2 : (applyMethodRounds records rounds now t)[i]? = some r2) :
    r.successScore ≤ r2.successScore ∧
    ∀ (record : URLRecord) (res : MethodResult) (methodName now2 : String),
      (applyResult record res methodName now2 t).successScore =
        if res.success then record.successScore + methodContribution methodName
        else record.successScore :=
  ⟨applyMethodRounds_score_mono rounds records now t i r r2 h h2,
   fun record res methodName now2 => applyResult_successScore record res methodName now2 t⟩

/-- Witness for C5: one record, one successful
`SocialBookmarkingEngine` round; the score grows from 0 to 0.1. -/
theorem c5_witness : recC1.successScore ≤ updatedRecC1.successScore := by
  have hrounds : applyMethodRounds [recC1] [([resC1], "SocialBookmarkingEngine")]
      "2025-01-01T00:00:00" defaultSuccessThreshold = [updatedRecC1] := by
    rw [applyMethodRounds_cons]
    unfold applyMethodRounds
    simp only [List.foldl_nil]
    exact updateEvalC1
  exact (c5_score_monotone [([resC1], "SocialBookmarkingEngine")] [recC1]
    "2025-01-01T00:00:00" defaultSuccessThreshold 0 recC1 updatedRecC1 rfl
    (by rw [hrounds]; rfl)).1

/-- Claim C6: the amplification layer is always executed against the full
original URL set of the campaign — its input is rebuilt from the
original urls and metadata, independently of the layer outcomes, so
its url list equals the original urls whenever the provided metadata
list matches the url count (and always when metadata defaults). -/
theorem c6_amplification_full (urls : List String) (metadataList : Option (List String))
    (layerOutcome : String → List String → List (List MethodResult))
    (h : ∀ ms, metadataList = some ms → ms.length = urls.length) :
    (executeLayeredStrategy urls metadataList layerOutcome).amplificationInput.map
      Prod.fst = urls ∧
    (executeLayeredStrategy urls metadataList layerOutcome).amplificationInput =
      urls.zip (metadataList.getD (List.replicate urls.length "")) := by
  cases metadataList with
  | none =>
      constructor
      · show (urls.zip (List.replicate urls.length "")).map Prod.fst = urls
        apply List.map_fst_zip
        simp
      · rfl
  | some ms =>
      have hlen : ms.length = urls.length := h ms rfl
      constructor
      · show (urls.zip ms).map Prod.fst = urls
        apply List.map_fst_zip
        omega
      · rfl

/-- Witness for C6: one url, default metadata, an oracle returning no
results anywhere — the amplification input is still the full url
list. -/
theorem c6_witness :
    (executeLayeredStrategy ["http://a"] none
      (fun _ _ => [])).amplificationInput.map Prod.fst = ["http://a"] :=
  (c6_amplification_full ["http://a"] none (fun _ _ => []) (fun _ h => nomatch h)).1

/-- Claim C9: for every URL (with its parsed scheme and path) and every
method, the heuristic prediction lies in the closed interval
[0.1, 0.95]. -/
theorem c9_heuristic_bounds (url scheme path : String) (m : IndexingMethod) :
    1/10 ≤ heuristicPrediction url scheme path m ∧
    heuristicPrediction url scheme path m ≤ 95/100 := by
  unfold heuristicPrediction
  constructor
  · exact le_max_left _ _
  · apply max_le
    · norm_num
    · exact min_le_left _ _

/-- Counterexample for C1: running the basic coordinator's own
pipeline on one URL — one successful method result under the default
success threshold — leaves the record in `partial_success`, and the
final aggregation counts 0 successful + 0 failed out of 1 total.  The
aggregation computes no permanently-failed count at all (its third
category is `partial_success`), so successful + failed +
permanently-failed counts cannot sum to the total here. -/
theorem c1_counterexample :
    updateRecordsWithResults [recC1] [resC1] "SocialBookmarkingEngine"
      "2025-01-01T00:00:00" defaultSuccessThreshold = [updatedRecC1] ∧
    (compileFinalResults [updatedRecC1]).successfulUrls +
      (compileFinalResults [updatedRecC1]).failedUrls = 0 ∧
    (compileFinalResults [updatedRecC1]).totalUrls = 1 :=
  ⟨updateEvalC1, by decide, by decide⟩

/-- Claim C1 (amended): the per-URL counts partition the batch in this
form — (i) the basic coordinator's aggregation satisfies successful +
partial_success + failed = total whenever every record carries one of
those three statuses, which (ii) holds for every record updated with a
matching method result; and (iii) the enhanced strategy's aggregation
satisfies successful + failed = total for distinct input URLs (its
successful set drawn from those URLs); neither aggregation computes a
permanently-failed count. -/
theorem c1_partition_amended :
    (∀ records : List URLRecord,
      (∀ r ∈ records, r.status = "success" ∨ r.status = "partial_success" ∨
        r.status = "failed") →
      (compileFinalResults records).successfulUrls +
        (compileFinalResults records).partialSuccessUrls +
        (compileFinalResults records).failedUrls = (compileFinalResults records).totalUrls) ∧
    (∀ (record : URLRecord) (res : MethodResult) (methodName now : String) (t : ℚ),
      (applyResult record res methodName now t).status = "success" ∨
      (applyResult record res methodName now t).status = "partial_success" ∨
      (applyResult record res methodName now t).status = "failed") ∧
    (∀ (mrls : List (List MethodResult)) (origUrls : List String),
      origUrls.Nodup → (∀ r ∈ mrls.flatten, r.success = true → r.url ∈ origUrls) →
      (calculateOverallResults mrls origUrls).successfulUrls.length +
        (calculateOverallResults mrls origUrls).failedUrls.length = origUrls.length) := by
  refine ⟨?_, applyResult_status, calculateOverallResults_partition⟩
  intro records h
  have := count_three_filters records h
  simpa [compileFinalResults] using this

/-- Witness for C1: the amended partition at concrete inputs — the
three counts sum to 1 for the updated record, and the enhanced
aggregation splits one distinct URL into 1 successful + 0 failed. -/
theorem c1_witness :
    (compileFinalResults [updatedRecC1]).successfulUrls +
      (compileFinalResults [updatedRecC1]).partialSuccessUrls +
      (compileFinalResults [updatedRecC1]).failedUrls =
      (compileFinalResults [updatedRecC1]).totalUrls ∧
    (calculateOverallResults [[resC1]] ["http://a"]).successfulUrls.length +
      (calculateOverallResults [[resC1]] ["http://a"]).failedUrls.length = 1 := by
  constructor
  · apply c1_partition_amended.1 [updatedRecC1]
    intro r hr
    rw [List.mem_singleton] at hr
    subst hr
    right
    left
    rfl
  · exact c1_partition_amended.2.2 [[resC1]] ["http://a"] (by decide) (by decide)

/-- Counterexample for C2: a record with cumulative score 0.8 — at or
above the claimed primary-layer threshold 0.7 — is still selected for
the secondary-layer dispatch, because the coordinator compares against
the configured success threshold (default 0.95), not 0.7. -/
theorem c2_counterexample :
    selectSecondaryRecords [recC2] defaultSuccessThreshold = [recC2] ∧
    (7/10 : ℚ) ≤ recC2.successScore := by
  constructor
  · unfold selectSecondaryRecords
    have hd : decide (recC2.successScore < defaultSuccessThreshold) = true := by
      rw [decide_eq_true_eq]
      norm_num [recC2, defaultSuccessThreshold]
    simp [List.filter_cons, hd]
  · norm_num [recC2]

/-- Claim C2 (amended): a URL is dispatched to the secondary phase of
the basic coordinator exactly when its cumulative score is below the
configured `success_threshold` (default 0.95, not the declared
per-layer 0.7); in the enhanced strategy a (url, metadata) pair
survives into the next layer exactly when no method result of the
current layer reported success for its url (score thresholds are not
consulted); and every record appears in the final report regardless of
dispatch. -/
theorem c2_dispatch_amended :
    (∀ (records : List URLRecord) (t : ℚ) (r : URLRecord),
      r ∈ selectSecondaryRecords records t ↔ r ∈ records ∧ r.successScore < t) ∧
    (∀ (pairs : List (String × String)) (mrls : List (List MethodResult))
      (p : String × String),
      p ∈ filterUnsuccessfulUrls pairs mrls ↔
        p ∈ pairs ∧ p.1 ∉ collectSuccessfulUrls mrls) ∧
    (∀ records : List URLRecord, (compileFinalResults records).urlRecords = records ∧
      (compileFinalResults records).totalUrls = records.length) :=
  ⟨mem_selectSecondaryRecords, mem_filterUnsuccessfulUrls, fun _ => ⟨rfl, rfl⟩⟩

/-- Counterexample for C7: the cache TTL is 300 seconds (5 minutes),
not about 15 minutes — an entry stored at time 0 and queried at 600 s
(younger than 15 minutes) is not served — and recording an attempt for
`social_bookmarking` leaves that method's own cached performance entry
(keyed `social_bookmarking_7`) exactly in place, so recording does not
invalidate the entries for that (method, window) key. -/
theorem c7_counterexample :
    cacheTtl = 300 ∧
    servedFromCache 600 c7State "social_bookmarking" 7 = false ∧
    (recordAttemptCacheInvalidate c7State "social_bookmarking").metricsCache =
      c7State.metricsCache := by decide

/-- Claim C7 (amended): a method-performance query is served from
cache exactly when the (method, window) key is present and its entry
is younger than the 300-second TTL; recording an attempt deletes only
the key equal to the bare method name, which never coincides with any
`method_days` performance key, so no performance cache entry — neither
the recorded method's nor any other's — is invalidated (in particular
there is no global flush). -/
theorem c7_cache_amended :
    (∀ (now : Nat) (st : CacheState) (m : String) (d : Nat),
      servedFromCache now st m d = true ↔
        ∃ v t, dictFind (perfCacheKey m d) st.metricsCache = some v ∧
          dictFind (perfCacheKey m d) st.lastCacheUpdate = some t ∧
          timedeltaSeconds (now - t) < cacheTtl) ∧
    (∀ (st : CacheState) (m : String) (d : Nat),
      dictFind (perfCacheKey m d) (recordAttemptCacheInvalidate st m).metricsCache =
        dictFind (perfCacheKey m d) st.metricsCache) ∧
    (∀ (st : CacheState) (m k : String), k ≠ m →
      dictFind k (recordAttemptCacheInvalidate st m).metricsCache =
        dictFind k st.metricsCache) := by
  refine ⟨?_, ?_, ?_⟩
  · intro now st m d
    unfold servedFromCache
    cases h1 : dictFind (perfCacheKey m d) st.metricsCache with
    | none => simp [h1]
    | some v =>
        cases h2 : dictFind (perfCacheKey m d) st.lastCacheUpdate with
        | none => simp [h1, h2]
        | some t => simp [h1, h2]
  · intro st m d
    exact dictFind_filter_ne st.metricsCache (perfCacheKey m d) m (perfCacheKey_ne m d)
  · intro st m k hk
    exact dictFind_filter_ne st.metricsCache k m hk

/-- Witness for C7: an unrelated key survives the invalidation of
`social_bookmarking`, instantiating the no-global-flush part. -/
theorem c7_witness :
    dictFind "other_7"
      (recordAttemptCacheInvalidate c7State "social_bookmarking").metricsCache =
      dictFind "other_7" c7State.metricsCache :=
  c7_cache_amended.2.2 c7State "social_bookmarking" "other_7" (by decide)

/-- Counterexample for C8: when the database insert raises, the call
returns without signalling any error to the caller while the attempts
ledger does not contain the attempt — the attempt is silently
dropped. -/
theorem c8_counterexample :
    (recordAttempt false { attemptsLedger := [], dailySummaries := [] }
      { metricsCache := [], lastCacheUpdate := [] } attemptC8).2.2 = false ∧
    (recordAttempt false { attemptsLedger := [], dailySummaries := [] }
      { metricsCache := [], lastCacheUpdate := [] } attemptC8).1.attemptsLedger = [] :=
  ⟨rfl, rfl⟩

/-- Claim C8 (amended): when the insert/commit succeeds, the attempt
row is appended to the attempts ledger before the call returns, and
the ledger is append-only in every case; but the call never signals an
error to the caller, so on a database failure the attempt is silently
dropped (durability holds only on the non-raising path). -/
theorem c8_record_amended (db : TrackerDb) (cache : CacheState) (a : IndexingAttempt) :
    (recordAttempt true db cache a).1.attemptsLedger = db.attemptsLedger ++ [a] ∧
    a ∈ (recordAttempt true db cache a).1.attemptsLedger ∧
    (∀ ok : Bool, ∃ tail, (recordAttempt ok db cache a).1.attemptsLedger =
      db.attemptsLedger ++ tail) ∧
    (∀ ok : Bool, (recordAttempt ok db cache a).2.2 = false) := by
  refine ⟨rfl, ?_, ?_, ?_⟩
  · show a ∈ db.attemptsLedger ++ [a]
    simp
  · intro ok
    cases ok
    · exact ⟨[], (List.append_nil db.attemptsLedger).symm⟩
    · exact ⟨[a], rfl⟩
  · intro ok
    cases ok <;> rfl

/-- Claim C10: for every input list of URLs, `process_batch` returns
exactly one result per input URL, in input order; a result produced by
a raising `process_url` carries that URL, `success = false` and the
error text, and a returned result is passed through unchanged — so
whenever `process_url` echoes its input URL (as every engine in the
repository does), every result carries its input URL; no exception
propagates out of the batch call (the embedding is total in the
outcome oracle). -/
theorem c10_batch (outcome : Nat → Except String MethodResult) (urls : List String)
    (h : ∀ (i : Nat) (r : MethodResult), outcome i = Except.ok r →
      ∀ (hi : i < urls.length), r.url = urls.get ⟨i, hi⟩) :
    (processBatch outcome urls).length = urls.length ∧
    ∀ (i : Nat) (hi : i < urls.length), ∃ res : MethodResult,
      (processBatch outcome urls)[i]? = some res ∧
      res.url = urls.get ⟨i, hi⟩ ∧
      (∀ e, outcome i = Except.error e → res.success = false ∧ res.error = some e) ∧
      (∀ r, outcome i = Except.ok r → res = r) := by
  constructor
  · exact processBatchFrom_length outcome 0 urls
  · intro i hi
    have hget := processBatchFrom_getElem? outcome urls 0 i
    rw [Nat.zero_add] at hget
    have hurls : urls[i]? = some (urls.get ⟨i, hi⟩) := by
      rw [List.getElem?_eq_getElem hi]
      simp [List.get_eq_getElem]
    refine ⟨processOne outcome i (urls.get ⟨i, hi⟩), ?_, ?_, ?_, ?_⟩
    · rw [show (processBatch outcome urls) = processBatchFrom outcome 0 urls from rfl,
        hget, hurls]
      rfl
    · unfold processOne
      cases ho : outcome i with
      | ok r => exact h i r ho hi
      | error e => rfl
    · intro e he
      unfold processOne
      rw [he]
      exact ⟨rfl, rfl⟩
    · intro r hr
      unfold processOne
      rw [hr]

/-- Witness for C10: two URLs, the first succeeding and the second
raising — the batch still returns one result per URL. -/
theorem c10_witness :
    (processBatch outcomeC10 urlsC10).length = urlsC10.length := by
  have h : ∀ (i : Nat) (r : MethodResult), outcomeC10 i = Except.ok r →
      ∀ (hi : i < urlsC10.length), r.url = urlsC10.get ⟨i, hi⟩ := by
    intro i r hok hi
    match i, hi with
    | 0, _ =>
        have hr : ({ url := "http://a", success := true, error := none } : MethodResult)
            = r := by
          simpa [outcomeC10] using hok
        rw [← hr]
        rfl
    | 1, _ =>
        simp [outcomeC10] at hok
    | (n + 2), hi2 =>
        exact absurd hi2 (by simp [urlsC10])
  exact (c10_batch outcomeC10 urlsC10 h).1
